import Mathlib

/-!
Verification of the composite-beam sizing core against its specification.

The Lean definitions below are a shallow embedding of the Python sources:
`laminate_mechanics.py` (classical-lamination-theory homogenization),
`beam_analytics.py` (sectional mechanics for the three cross-section
topologies), `beam_qlearning_case1.py` (reward function and the exhaustive
Phase-A layup-pair search), and `fem_solver.py` (the Euler-Bernoulli
finite-element deflection check).  Machine floats are idealized as real
numbers; a Python function that can raise is embedded as `Except`-valued;
the linear solve `np.linalg.solve` is embedded as multiplication by the
matrix inverse.
-/

set_option maxHeartbeats 1600000
set_option linter.unusedVariables false

noncomputable section

namespace CompositeBeam

/-! ## Laminate homogenization (`laminate_mechanics.compute_laminate_A_matrix`) -/

/-- Result record of `compute_laminate_A_matrix` (the returned dict). -/
structure LaminateProps where
  A_matrix : Matrix (Fin 3) (Fin 3) ℝ
  thickness : ℝ
  E1 : ℝ
  E2 : ℝ
  G12 : ℝ
  v12 : ℝ

/-- Stress transformation matrix `T1` built from `m = cos θ`, `n = sin θ`. -/
def T1 (m n : ℝ) : Matrix (Fin 3) (Fin 3) ℝ :=
  !![m ^ 2, n ^ 2, 2 * m * n;
     n ^ 2, m ^ 2, -(2 * m * n);
     -(m * n), m * n, m ^ 2 - n ^ 2]

/-- Strain transformation matrix `T2` built from `m = cos θ`, `n = sin θ`. -/
def T2 (m n : ℝ) : Matrix (Fin 3) (Fin 3) ℝ :=
  !![m ^ 2, n ^ 2, m * n;
     n ^ 2, m ^ 2, -(m * n);
     -(2 * m * n), 2 * m * n, m ^ 2 - n ^ 2]

/-- The unrotated reduced stiffness matrix `Q` of one ply. -/
def Qply (E1 E2 G12 v12 : ℝ) : Matrix (Fin 3) (Fin 3) ℝ :=
  let Q11 := E1 / (1 - v12 ^ 2 * E2 / E1)
  let Q22 := E2 / (1 - v12 ^ 2 * E2 / E1)
  let Q12 := v12 * E2 / (1 - v12 ^ 2 * E2 / E1)
  let Q66 := G12
  !![Q11, Q12, 0;
     Q12, Q22, 0;
     0, 0, Q66]

/-- The rotated ply stiffness `Q_bar = T1 @ Q @ T2.T` as written in the source. -/
def Q_bar (E1 E2 G12 v12 m n : ℝ) : Matrix (Fin 3) (Fin 3) ℝ :=
  T1 m n * Qply E1 E2 G12 v12 * (T2 m n).transpose

/-- `compute_laminate_A_matrix(layup, E1, E2, G12, v12, ply_thickness)`:
`A = Σ_plies Q_bar(θ) · ply_thickness` with `θ = radians(angle)`, and
`thickness = len(layup) · ply_thickness`.  The source contains no `raise`,
so the embedding is a total function. -/
def compute_laminate_A_matrix (E1 E2 G12 v12 ply_thickness : ℝ)
    (layup : List ℝ) : LaminateProps :=
  { A_matrix :=
      (layup.map (fun angle =>
        let θ := angle * Real.pi / 180
        let m := Real.cos θ
        let n := Real.sin θ
        ply_thickness • Q_bar E1 E2 G12 v12 m n)).sum
    thickness := (layup.length : ℝ) * ply_thickness
    E1 := E1, E2 := E2, G12 := G12, v12 := v12 }

/-- The default material constants of `compute_laminate_A_matrix`
(`E1=115000`, `E2=7600`, `G12=3500`, `v12=0.3`, `ply_thickness=0.14`),
used by every call in the repository. -/
def laminateDefault (layup : List ℝ) : LaminateProps :=
  compute_laminate_A_matrix 115000 7600 3500 (3 / 10) (7 / 50) layup

/-! ## Sectional mechanics (`beam_analytics.calculate_beam_properties`) -/

/-- Module-level material constants of `beam_analytics.py`. -/
def E_skin : ℝ := 115000

def rho_skin : ℝ := 157 / 100000

def rho_core : ℝ := 52 / 1000000

def sigma_skin_max : ℝ := 1670

/-- Round-half-even to two decimals, the idealization of Python's
`round(x, 2)` used for the mass-breakdown fields. -/
def roundHalfEven (y : ℝ) : ℤ :=
  if Int.fract y = 1 / 2 then (if Even ⌊y⌋ then ⌊y⌋ else ⌊y⌋ + 1) else round y

def round2 (x : ℝ) : ℝ := (roundHalfEven (100 * x) : ℝ) / 100

/-- The dict returned by `calculate_beam_properties`. -/
structure SectionProperties where
  I_total : ℝ
  mass_total : ℝ
  delta_max : ℝ
  sigma_max : ℝ
  safety_factor : ℝ
  EI : ℝ
  t_flange : ℝ
  t_web : ℝ
  core_area : ℝ
  mass_flange : ℝ
  mass_core : ℝ
  mass_side : ℝ

/-- The only error raised by the embedded sectional-mechanics code:
the `ValueError("Invalid case_type. Choose 1, 2, or 3.")` branch. -/
inductive BeamError where
  | invalidTopology
deriving DecidableEq

/-- Web/side contributions `(I_web, A_web, A_core)` of `case_type` 1 and 2
(the two branches are textually identical in the source). -/
def webPartsOpen (h b t_flange_actual t_web_actual : ℝ) : ℝ × ℝ × ℝ :=
  (2 * (t_web_actual * (h - 2 * t_flange_actual) ^ 3) / 12,
   2 * (t_web_actual * (h - 2 * t_flange_actual)),
   (b - 2 * t_web_actual) * (h - 2 * t_flange_actual))

/-- Web/side contributions `(I_web, A_web, A_core)` of `case_type` 3
(full box: outer-minus-inner inertia). -/
def webPartsBox (h b t_flange_actual t_side : ℝ) : ℝ × ℝ × ℝ :=
  ((b * h ^ 3) / 12 - ((b - 2 * t_side) * (h - 2 * t_flange_actual) ^ 3) / 12,
   2 * (b * t_flange_actual) + 2 * ((h - 2 * t_flange_actual) * t_side),
   (b - 2 * t_side) * (h - 2 * t_flange_actual))

/-- The `case_type` dispatch of `calculate_beam_properties`: unknown codes
raise (`ValueError`, modelled as `BeamError.invalidTopology`). -/
def webParts (case_type : ℤ) (h b t_flange_actual t_web_actual t_side : ℝ) :
    Except BeamError (ℝ × ℝ × ℝ) :=
  if case_type = 1 then .ok (webPartsOpen h b t_flange_actual t_web_actual)
  else if case_type = 2 then .ok (webPartsOpen h b t_flange_actual t_web_actual)
  else if case_type = 3 then .ok (webPartsBox h b t_flange_actual t_side)
  else .error .invalidTopology

/-- The straight-line tail of `calculate_beam_properties` after the branch:
flange contributions, totals, deflection, stress, safety factor and masses. -/
def assembleProps (h b t_flange_actual t_web_actual F L I_web A_web A_core : ℝ) :
    SectionProperties :=
  let I_flange := 2 * (b * t_flange_actual) * (h / 2) ^ 2
  let A_flange := 2 * (b * t_flange_actual)
  let I_total := I_flange + I_web
  let A_skin := A_flange + A_web
  let EI := E_skin * I_total
  let delta_max := (F * L ^ 3) / (48 * EI)
  let M_max := F * L / 4
  let sigma_max := (M_max * (h / 2)) / I_total
  let mass_total := (A_skin * rho_skin + A_core * rho_core) * L
  { I_total := I_total
    mass_total := mass_total
    delta_max := delta_max
    sigma_max := sigma_max
    safety_factor := sigma_skin_max / sigma_max
    EI := EI
    t_flange := t_flange_actual
    t_web := t_web_actual
    core_area := A_core
    mass_flange := round2 (A_flange * rho_skin * L)
    mass_core := round2 (A_core * rho_core * L)
    mass_side := round2 (A_web * rho_skin * L) }

/-- `calculate_beam_properties` of `beam_analytics.py`.  The parameters
`t_core_web` and `t_core_side` are declared by the source but never read. -/
def calculate_beam_properties (case_type : ℤ) (h b : ℝ)
    (flange_layup web_layup : List ℝ)
    (t_side t_core_web t_core_side F L : ℝ)
    (override_thickness : Bool) (t_flange t_web : ℝ) :
    Except BeamError SectionProperties :=
  let flange_props := laminateDefault flange_layup
  let web_props := laminateDefault web_layup
  let t_flange_actual := if override_thickness then t_flange else flange_props.thickness
  let t_web_actual := if override_thickness then t_web else web_props.thickness
  (webParts case_type h b t_flange_actual t_web_actual t_side).map
    (fun w => assembleProps h b t_flange_actual t_web_actual F L w.1 w.2.1 w.2.2)

/-! ## Reward function (`BeamQEnv.custom_reward`) and Phase-A layup search -/

def custom_reward (mass deflection : ℝ) : ℝ :=
  let mass_reward : ℝ :=
    if mass ≤ 70 then 10
    else if mass ≤ 80 then 7
    else if mass ≤ 100 then 4
    else if mass ≤ 120 then 2
    else if mass ≤ 170 then 0
    else -20
  let deflection_reward : ℝ :=
    if deflection ≤ 2 then 10
    else if deflection ≤ 3 then 5
    else if deflection ≤ 4 then 2
    else -15
  0.75 * mass_reward + 0.25 * deflection_reward

/-- The ordered pairs visited by the two nested `for` loops of
`find_best_layup_pair` (flange-major order). -/
def pairsOf (pool : List (List ℝ)) : List (List ℝ × List ℝ) :=
  pool.flatMap (fun flange => pool.map (fun web => (flange, web)))

/-- One iteration of the `find_best_layup_pair` loop body: homogenize the
web layup, evaluate the section at the seed geometry, score it, and keep
the pair when `reward > best_reward and deflection <= 3.8`.  The running
best is `none` while `best_reward` is still `-inf` (every finite reward
exceeds `-inf`, so only feasibility is tested then). -/
def phaseAStep (case_type : ℤ) (h b t_core F L : ℝ)
    (best : Option ((List ℝ × List ℝ) × ℝ)) (p : List ℝ × List ℝ) :
    Except BeamError (Option ((List ℝ × List ℝ) × ℝ)) := do
  let web_thick := (laminateDefault p.2).thickness
  let props ← calculate_beam_properties case_type h b p.1 p.2 web_thick t_core
    web_thick F L false 0 0
  let reward := custom_reward props.mass_total props.delta_max
  match best with
  | none =>
      if props.delta_max ≤ 3.8 then pure (some (p, reward)) else pure none
  | some q =>
      if reward > q.2 ∧ props.delta_max ≤ 3.8 then pure (some (p, reward))
      else pure (some q)

/-- `BeamQEnv.find_best_layup_pair`: fold the loop body over every ordered
pair of pool layups, starting from `best_reward = -inf`, no pair. -/
def find_best_layup_pair (case_type : ℤ) (pool : List (List ℝ))
    (h b t_core F L : ℝ) : Except BeamError (Option ((List ℝ × List ℝ) × ℝ)) :=
  (pairsOf pool).foldlM (phaseAStep case_type h b t_core F L) none

/-- The section properties a pool pair obtains at the Phase-A seed geometry
for topology 1 (the layup thicknesses come from homogenization). -/
def seedSection (h b F L : ℝ) (p : List ℝ × List ℝ) : SectionProperties :=
  let tf := (laminateDefault p.1).thickness
  let tw := (laminateDefault p.2).thickness
  let w := webPartsOpen h b tf tw
  assembleProps h b tf tw F L w.1 w.2.1 w.2.2

/-- The Phase-A hard constraint: seed deflection at most 3.8 mm. -/
def feasibleAt (h b F L : ℝ) (p : List ℝ × List ℝ) : Prop :=
  (seedSection h b F L p).delta_max ≤ 3.8

/-- The Phase-A score of a pool pair: the reward of its seed section. -/
def scoreAt (h b F L : ℝ) (p : List ℝ × List ℝ) : ℝ :=
  custom_reward (seedSection h b F L p).mass_total (seedSection h b F L p).delta_max

instance (h b F L : ℝ) : DecidablePred (feasibleAt h b F L) :=
  fun _ => Real.decidableLE _ _

/-! ### Generic best-so-far selection fold -/

/-- Pure form of the loop body: strict improvement plus feasibility. -/
def selStep {α : Type} (score : α → ℝ) (feas : α → Prop) [DecidablePred feas]
    (best : Option (α × ℝ)) (x : α) : Option (α × ℝ) :=
  match best with
  | none => if feas x then some (x, score x) else none
  | some q => if score x > q.2 ∧ feas x then some (x, score x) else some q

/-- No element of `l` is feasible. -/
def NoFeasible {α : Type} (feas : α → Prop) (l : List α) : Prop :=
  ∀ x ∈ l, ¬ feas x

/-- `y` (with score `r`) is the first feasible element of `l` attaining the
maximal score among feasible elements. -/
def IsBestFirst {α : Type} (score : α → ℝ) (feas : α → Prop) (l : List α)
    (y : α) (r : ℝ) : Prop :=
  r = score y ∧ feas y ∧
    ∃ l₁ l₂, l = l₁ ++ y :: l₂ ∧ (∀ x ∈ l₁, feas x → score x < r) ∧
      (∀ x ∈ l₂, feas x → score x ≤ r)

/-- Loop invariant of the selection fold. -/
def SelInv {α : Type} (score : α → ℝ) (feas : α → Prop) (l : List α) :
    Option (α × ℝ) → Prop
  | none => NoFeasible feas l
  | some q => IsBestFirst score feas l q.1 q.2

theorem selStep_none_pos {α : Type} (score : α → ℝ) (feas : α → Prop)
    [DecidablePred feas] (x : α) (hx : feas x) :
    selStep score feas none x = some (x, score x) := if_pos hx

theorem selStep_none_neg {α : Type} (score : α → ℝ) (feas : α → Prop)
    [DecidablePred feas] (x : α) (hx : ¬ feas x) :
    selStep score feas none x = none := if_neg hx

theorem selStep_some_pos {α : Type} (score : α → ℝ) (feas : α → Prop)
    [DecidablePred feas] (q : α × ℝ) (x : α) (hc : score x > q.2 ∧ feas x) :
    selStep score feas (some q) x = some (x, score x) := if_pos hc

theorem selStep_some_neg {α : Type} (score : α → ℝ) (feas : α → Prop)
    [DecidablePred feas] (q : α × ℝ) (x : α) (hc : ¬(score x > q.2 ∧ feas x)) :
    selStep score feas (some q) x = some q := if_neg hc

theorem selStep_inv {α : Type} (score : α → ℝ) (feas : α → Prop)
    [DecidablePred feas] (l : List α) (acc : Option (α × ℝ)) (x : α)
    (hinv : SelInv score feas l acc) :
    SelInv score feas (l ++ [x]) (selStep score feas acc x) := by
  cases acc with
  | none =>
    have hnf : NoFeasible feas l := hinv
    by_cases hx : feas x
    · rw [selStep_none_pos score feas x hx]
      show IsBestFirst score feas (l ++ [x]) x (score x)
      exact ⟨rfl, hx, l, [], rfl,
        fun y hy hfy => ((hnf y hy) hfy).elim, by simp⟩
    · rw [selStep_none_neg score feas x hx]
      show NoFeasible feas (l ++ [x])
      intro y hy
      rcases List.mem_append.mp hy with hy' | hy'
      · exact hnf y hy'
      · rw [List.mem_singleton.mp hy']; exact hx
  | some q =>
    have hib : IsBestFirst score feas l q.1 q.2 := hinv
    obtain ⟨hq, hfq, l₁, l₂, hsplit, h₁, h₂⟩ := hib
    by_cases hc : score x > q.2 ∧ feas x
    · rw [selStep_some_pos score feas q x hc]
      show IsBestFirst score feas (l ++ [x]) x (score x)
      refine ⟨rfl, hc.2, l₁ ++ q.1 :: l₂, [], by rw [hsplit], ?_, by simp⟩
      intro y hy hfy
      rcases List.mem_append.mp hy with hy' | hy'
      · exact lt_trans (h₁ y hy' hfy) hc.1
      · rcases List.mem_cons.mp hy' with rfl | hy''
        · exact hq ▸ hc.1
        · exact lt_of_le_of_lt (h₂ y hy'' hfy) hc.1
    · rw [selStep_some_neg score feas q x hc]
      show IsBestFirst score feas (l ++ [x]) q.1 q.2
      refine ⟨hq, hfq, l₁, l₂ ++ [x], by rw [hsplit]; simp, h₁, ?_⟩
      intro y hy hfy
      rcases List.mem_append.mp hy with hy' | hy'
      · exact h₂ y hy' hfy
      · rw [List.mem_singleton.mp hy']
        rw [List.mem_singleton.mp hy'] at hfy
        by_contra hgt
        exact hc ⟨lt_of_not_ge hgt, hfy⟩

theorem selFold_inv {α : Type} (score : α → ℝ) (feas : α → Prop)
    [DecidablePred feas] :
    ∀ (l l₀ : List α) (acc : Option (α × ℝ)), SelInv score feas l₀ acc →
      SelInv score feas (l₀ ++ l) (l.foldl (selStep score feas) acc) := by
  intro l
  induction l with
  | nil => intro l₀ acc h; simpa using h
  | cons x xs ih =>
    intro l₀ acc h
    have h' := selStep_inv score feas l₀ acc x h
    have h'' := ih (l₀ ++ [x]) (selStep score feas acc x) h'
    simpa [List.append_assoc] using h''

theorem selFold_spec {α : Type} (score : α → ℝ) (feas : α → Prop)
    [DecidablePred feas] (l : List α) :
    SelInv score feas l (l.foldl (selStep score feas) none) := by
  have h := selFold_inv score feas l [] none (by intro x hx; simp at hx)
  simpa using h

/-! ### The Phase-A fold is the selection fold for topology 1 -/

theorem phaseAStep_case1 (h b t_core F L : ℝ)
    (best : Option ((List ℝ × List ℝ) × ℝ)) (p : List ℝ × List ℝ) :
    phaseAStep 1 h b t_core F L best p =
      .ok (selStep (scoreAt h b F L) (feasibleAt h b F L) best p) := by
  cases best with
  | none =>
    have hred : phaseAStep 1 h b t_core F L none p =
        (if (seedSection h b F L p).delta_max ≤ 3.8
          then pure (some (p, scoreAt h b F L p)) else pure none) := rfl
    by_cases hf : feasibleAt h b F L p
    · have hf' : (seedSection h b F L p).delta_max ≤ 3.8 := hf
      rw [hred, if_pos hf', selStep_none_pos _ _ _ hf]
      rfl
    · have hf' : ¬ (seedSection h b F L p).delta_max ≤ 3.8 := hf
      rw [hred, if_neg hf', selStep_none_neg _ _ _ hf]
      rfl
  | some q =>
    have hred : phaseAStep 1 h b t_core F L (some q) p =
        (if scoreAt h b F L p > q.2 ∧ (seedSection h b F L p).delta_max ≤ 3.8
          then pure (some (p, scoreAt h b F L p)) else pure (some q)) := rfl
    by_cases hc : scoreAt h b F L p > q.2 ∧ feasibleAt h b F L p
    · have hc' : scoreAt h b F L p > q.2 ∧ (seedSection h b F L p).delta_max ≤ 3.8 := hc
      rw [hred, if_pos hc', selStep_some_pos _ _ _ _ hc]
      rfl
    · have hc' : ¬(scoreAt h b F L p > q.2 ∧ (seedSection h b F L p).delta_max ≤ 3.8) := hc
      rw [hred, if_neg hc', selStep_some_neg _ _ _ _ hc]
      rfl

theorem foldlM_ok {α β : Type} (stepM : β → α → Except BeamError β)
    (step : β → α → β) (hs : ∀ acc x, stepM acc x = .ok (step acc x)) :
    ∀ (l : List α) (acc : β), l.foldlM stepM acc = .ok (l.foldl step acc) := by
  intro l
  induction l with
  | nil => intro acc; rfl
  | cons x xs ih =>
    intro acc
    rw [List.foldlM_cons, hs acc x, List.foldl_cons]
    exact ih (step acc x)

theorem find_best_layup_pair_case1 (pool : List (List ℝ)) (h b t_core F L : ℝ) :
    find_best_layup_pair 1 pool h b t_core F L =
      .ok ((pairsOf pool).foldl
        (selStep (scoreAt h b F L) (feasibleAt h b F L)) none) :=
  foldlM_ok _ _ (phaseAStep_case1 h b t_core F L) (pairsOf pool) none

/-- The Phase-A postcondition: some pair is returned; it is feasible, its
recorded reward is its score, no feasible pool pair scores higher, and it
is the first pair in iteration order attaining that score. -/
def PhaseABest (pool : List (List ℝ)) (h b t_core F L : ℝ) : Prop :=
  ∃ f w r, find_best_layup_pair 1 pool h b t_core F L = .ok (some ((f, w), r)) ∧
    (f, w) ∈ pairsOf pool ∧ feasibleAt h b F L (f, w) ∧
    r = scoreAt h b F L (f, w) ∧
    (∀ p ∈ pairsOf pool, feasibleAt h b F L p → scoreAt h b F L p ≤ r) ∧
    ∃ l₁ l₂, pairsOf pool = l₁ ++ (f, w) :: l₂ ∧
      ∀ p ∈ l₁, feasibleAt h b F L p → scoreAt h b F L p < r

/-! ## FEM beam solver (`fem_solver.fem_beam_solver_correct`) -/

/-- Local Euler-Bernoulli element stiffness `(EI/le³)·[[12,6le,...]]`. -/
def k_local (EI le : ℝ) : Matrix (Fin 4) (Fin 4) ℝ :=
  (EI / le ^ 3) •
    !![12, 6 * le, -12, 6 * le;
       6 * le, 4 * le ^ 2, -6 * le, 2 * le ^ 2;
       -12, -6 * le, 12, -6 * le;
       6 * le, 2 * le ^ 2, -6 * le, 4 * le ^ 2]

/-- Assembled global stiffness: the scatter-add of every element's local
matrix at dof block `[2e, 2e+3]` (entry of the full `2(N+1)`-dof system). -/
def K_global (EI L : ℝ) (num_elements : ℕ) : ℕ → ℕ → ℝ := fun i j =>
  ∑ e ∈ Finset.range num_elements,
    (if h : 2 * e ≤ i ∧ i < 2 * e + 4 ∧ 2 * e ≤ j ∧ j < 2 * e + 4 then
      k_local EI (L / num_elements) ⟨i - 2 * e, by omega⟩ ⟨j - 2 * e, by omega⟩
    else 0)

/-- `mid_node = n_nodes // 2` with `n_nodes = num_elements + 1`. -/
def mid_node (num_elements : ℕ) : ℕ := (num_elements + 1) / 2

/-- Global load vector: `F_global[2*mid_node] = -F`, zero elsewhere. -/
def F_global (num_elements : ℕ) (F : ℝ) : ℕ → ℝ := fun i =>
  if i = 2 * mid_node num_elements then -F else 0

/-- The `k`-th smallest free dof after eliminating the transverse dofs of
the two end nodes (`fixed_dofs = [0, 2*(n_nodes-1)]`): the free dofs are
`1, …, 2N−1` and `2N+1`. -/
def freeDof (num_elements : ℕ) (k : ℕ) : ℕ :=
  if k < 2 * num_elements - 1 then k + 1 else 2 * num_elements + 1

/-- Reduced stiffness: `K_global[np.ix_(free_dofs, free_dofs)]`. -/
def K_reduced (EI L : ℝ) (N : ℕ) : Matrix (Fin (2 * N)) (Fin (2 * N)) ℝ :=
  Matrix.of fun k l => K_global EI L N (freeDof N k) (freeDof N l)

/-- Reduced load: `F_global[free_dofs]`. -/
def F_reduced (N : ℕ) (F : ℝ) : Fin (2 * N) → ℝ := fun k =>
  F_global N F (freeDof N k)

/-- `np.linalg.solve(K_reduced, F_reduced)`, embedded as inverse·vector. -/
def d_reduced (EI L F : ℝ) (N : ℕ) : Fin (2 * N) → ℝ :=
  Matrix.mulVec (K_reduced EI L N)⁻¹ (F_reduced N F)

/-- Total-function view of the reduced solution (zero out of range). -/
def d_reducedN (EI L F : ℝ) (N : ℕ) (k : ℕ) : ℝ :=
  if h : k < 2 * N then d_reduced EI L F N ⟨k, h⟩ else 0

/-- The reconstructed full solution `d`: zeros at the eliminated dofs `0`
and `2N`, the reduced solution scattered back at the free dofs. -/
def d_full (EI L F : ℝ) (N : ℕ) (i : ℕ) : ℝ :=
  if i = 0 then 0
  else if i = 2 * N then 0
  else if i = 2 * N + 1 then d_reducedN EI L F N (2 * N - 1)
  else d_reducedN EI L F N (i - 1)

/-- The displacement curve `u = d[0::2]` (even-indexed dofs). -/
def fem_u (EI L F : ℝ) (N : ℕ) : List ℝ :=
  (List.range (N + 1)).map (fun j => d_full EI L F N (2 * j))

/-- Nodal positions `x = np.linspace(0, L, n_nodes)`. -/
def fem_x (L : ℝ) (N : ℕ) : List ℝ :=
  (List.range (N + 1)).map (fun j => (j : ℝ) * (L / N))

/-- `fem_beam_solver_correct(EI, L, F, num_elements)` returns `(x, u)`. -/
def fem_beam_solver_correct (EI L F : ℝ) (num_elements : ℕ) :
    List ℝ × List ℝ :=
  (fem_x L num_elements, fem_u EI L F num_elements)

end CompositeBeam

namespace CompositeBeam

/-- C1: for every valid topology code and positive geometry, laminate and
load inputs, `calculate_beam_properties` succeeds and the returned bundle
satisfies the closed-form postconditions: `I_total` is the flange term plus
the per-topology web term, `EI = E_skin · I_total`,
`δ = F·L³/(48·EI)`, `σ = (F·L/4)·(h/2)/I_total`, safety factor
`= σ_ult/σ`, and total mass `= (A_skin·ρ_skin + A_core·ρ_core)·L` with the
per-topology skin/core areas. -/
theorem calculate_beam_properties_postconditions (case_type : ℤ) (h b : ℝ)
    (fl wl : List ℝ) (t_side t_core_web t_core_side F L : ℝ)
    (hcase : case_type = 1 ∨ case_type = 2 ∨ case_type = 3)
    (hh : 0 < h) (hb : 0 < b) (hts : 0 < t_side) (hfl : fl ≠ []) (hwl : wl ≠ [])
    (hF : 0 < F) (hL : 0 < L) :
    ∃ p : SectionProperties,
      calculate_beam_properties case_type h b fl wl t_side t_core_web t_core_side
        F L false 0 0 = .ok p ∧
      (let tf := (laminateDefault fl).thickness
       let tw := (laminateDefault wl).thickness
       p.I_total = 2 * (b * tf) * (h / 2) ^ 2 +
          (if case_type = 3 then
            (b * h ^ 3) / 12 - ((b - 2 * t_side) * (h - 2 * tf) ^ 3) / 12
           else 2 * (tw * (h - 2 * tf) ^ 3) / 12) ∧
       p.EI = E_skin * p.I_total ∧
       p.delta_max = F * L ^ 3 / (48 * p.EI) ∧
       p.sigma_max = (F * L / 4) * (h / 2) / p.I_total ∧
       p.safety_factor = sigma_skin_max / p.sigma_max ∧
       p.mass_total =
         ((2 * (b * tf) +
            (if case_type = 3 then 2 * (b * tf) + 2 * ((h - 2 * tf) * t_side)
             else 2 * (tw * (h - 2 * tf)))) * rho_skin +
          (if case_type = 3 then (b - 2 * t_side) * (h - 2 * tf)
           else (b - 2 * tw) * (h - 2 * tf)) * rho_core) * L) := by
  rcases hcase with rfl | rfl | rfl <;>
    exact ⟨_, rfl, by norm_num [assembleProps, webPartsOpen, webPartsBox]⟩

/-- C1 witness: the postconditions instantiated at topology 1,
`h=35, b=20`, single-ply layups, `t_side=1`, `F=4000`, `L=450`. -/
theorem calculate_beam_properties_postconditions_witness :
    ((1 : ℤ) = 1 ∨ (1 : ℤ) = 2 ∨ (1 : ℤ) = 3) ∧ (0 : ℝ) < 35 ∧ (0 : ℝ) < 20 ∧
    (0 : ℝ) < 1 ∧ ([(0 : ℝ)] ≠ []) ∧ (0 : ℝ) < 4000 ∧ (0 : ℝ) < 450 ∧
    (∃ p : SectionProperties,
      calculate_beam_properties 1 35 20 [(0 : ℝ)] [(0 : ℝ)] 1 1 1
        4000 450 false 0 0 = .ok p ∧
      (let tf := (laminateDefault [(0 : ℝ)]).thickness
       let tw := (laminateDefault [(0 : ℝ)]).thickness
       p.I_total = 2 * (20 * tf) * ((35 : ℝ) / 2) ^ 2 +
          (if (1 : ℤ) = 3 then
            (20 * (35 : ℝ) ^ 3) / 12 - ((20 - 2 * 1) * (35 - 2 * tf) ^ 3) / 12
           else 2 * (tw * ((35 : ℝ) - 2 * tf) ^ 3) / 12) ∧
       p.EI = E_skin * p.I_total ∧
       p.delta_max = 4000 * (450 : ℝ) ^ 3 / (48 * p.EI) ∧
       p.sigma_max = ((4000 : ℝ) * 450 / 4) * (35 / 2) / p.I_total ∧
       p.safety_factor = sigma_skin_max / p.sigma_max ∧
       p.mass_total =
         ((2 * (20 * tf) +
            (if (1 : ℤ) = 3 then 2 * (20 * tf) + 2 * ((35 - 2 * tf) * 1)
             else 2 * (tw * ((35 : ℝ) - 2 * tf)))) * rho_skin +
          (if (1 : ℤ) = 3 then ((20 : ℝ) - 2 * 1) * (35 - 2 * tf)
           else (20 - 2 * tw) * ((35 : ℝ) - 2 * tf)) * rho_core) * 450)) := by
  refine ⟨by norm_num, by norm_num, by norm_num, by norm_num, by simp,
    by norm_num, by norm_num, ?_⟩
  exact calculate_beam_properties_postconditions 1 35 20 [0] [0] 1 1 1 4000 450
    (by norm_num) (by norm_num) (by norm_num) (by norm_num) (by simp) (by simp)
    (by norm_num) (by norm_num)

/-- C9: `calculate_beam_properties` fails with the invalid-topology error
exactly for topology codes outside {1, 2, 3}; for the three valid codes it
never produces that error. -/
theorem calculate_beam_properties_invalid_topology (case_type : ℤ) (h b : ℝ)
    (fl wl : List ℝ) (t_side t_core_web t_core_side F L : ℝ)
    (override_thickness : Bool) (t_flange t_web : ℝ) :
    calculate_beam_properties case_type h b fl wl t_side t_core_web t_core_side
        F L override_thickness t_flange t_web = .error .invalidTopology ↔
      ¬(case_type = 1 ∨ case_type = 2 ∨ case_type = 3) := by
  by_cases h1 : case_type = 1
  · simp [calculate_beam_properties, webParts, Except.map, h1]
  by_cases h2 : case_type = 2
  · simp [calculate_beam_properties, webParts, Except.map, h1, h2]
  by_cases h3 : case_type = 3
  · simp [calculate_beam_properties, webParts, Except.map, h1, h2, h3]
  simp [calculate_beam_properties, webParts, Except.map, h1, h2, h3]

/-- C10: the declared parameters `t_core_web` and `t_core_side` have no
influence on the result of `calculate_beam_properties`: two calls that
differ only in them return identical bundles. -/
theorem core_thickness_params_unused (case_type : ℤ) (h b : ℝ)
    (fl wl : List ℝ) (t_side t_core_web t_core_side t_core_web' t_core_side'
      F L : ℝ) (override_thickness : Bool) (t_flange t_web : ℝ) :
    calculate_beam_properties case_type h b fl wl t_side t_core_web t_core_side
        F L override_thickness t_flange t_web =
      calculate_beam_properties case_type h b fl wl t_side t_core_web' t_core_side'
        F L override_thickness t_flange t_web := rfl

/-- C3: whenever some pool pair meets the deflection constraint, Phase A
returns a pair: it is feasible (deflection ≤ 3.8 mm at the seed geometry),
its reward is maximal among all constraint-satisfying ordered pairs, and
among pairs attaining that reward it is the first in pool iteration
order (earlier feasible pairs score strictly less). -/
theorem find_best_layup_pair_optimal (pool : List (List ℝ)) (h b t_core F L : ℝ)
    (hfeas : ∃ p ∈ pairsOf pool, feasibleAt h b F L p) :
    PhaseABest pool h b t_core F L := by
  have hspec := selFold_spec (scoreAt h b F L) (feasibleAt h b F L) (pairsOf pool)
  cases hres : (pairsOf pool).foldl
      (selStep (scoreAt h b F L) (feasibleAt h b F L)) none with
  | none =>
    rw [hres] at hspec
    have hnf : NoFeasible (feasibleAt h b F L) (pairsOf pool) := hspec
    obtain ⟨p, hp, hfp⟩ := hfeas
    exact absurd hfp (hnf p hp)
  | some q =>
    rw [hres] at hspec
    have hib : IsBestFirst (scoreAt h b F L) (feasibleAt h b F L)
        (pairsOf pool) q.1 q.2 := hspec
    obtain ⟨hq, hfq, l₁, l₂, hsplit, h₁, h₂⟩ := hib
    refine ⟨q.1.1, q.1.2, q.2, ?_, ?_, hfq, hq, ?_, l₁, l₂, hsplit, h₁⟩
    · rw [find_best_layup_pair_case1, hres]
    · rw [hsplit]
      exact List.mem_append.mpr (Or.inr (List.mem_cons_self _ _))
    · intro p hp hfp
      rw [hsplit] at hp
      rcases List.mem_append.mp hp with hp' | hp'
      · exact le_of_lt (h₁ p hp' hfp)
      · rcases List.mem_cons.mp hp' with rfl | hp''
        · exact le_of_eq hq.symm
        · exact h₂ p hp'' hfp

def poolA : List (List ℝ) := [[0, 0, 0, 0, 0, 0, 0, 0]]

/-- C3 witness: a one-layup pool whose single ordered pair is feasible at
the seed geometry `h=35, b=20` with `F=4000 N`, `L=450 mm`. -/
theorem find_best_layup_pair_optimal_witness :
    (∃ p ∈ pairsOf poolA, feasibleAt 35 20 4000 450 p) ∧
    PhaseABest poolA 35 20 4 4000 450 := by
  have hf : feasibleAt 35 20 4000 450
      (([0, 0, 0, 0, 0, 0, 0, 0], [0, 0, 0, 0, 0, 0, 0, 0]) :
        List ℝ × List ℝ) := by
    show (seedSection 35 20 4000 450 _).delta_max ≤ 3.8
    norm_num [seedSection, assembleProps, webPartsOpen, laminateDefault,
      compute_laminate_A_matrix, E_skin]
  have hmem : (([0, 0, 0, 0, 0, 0, 0, 0], [0, 0, 0, 0, 0, 0, 0, 0]) :
      List ℝ × List ℝ) ∈ pairsOf poolA := by
    simp [pairsOf, poolA]
  exact ⟨⟨_, hmem, hf⟩,
    find_best_layup_pair_optimal poolA 35 20 4 4000 450 ⟨_, hmem, hf⟩⟩

/-- C4: when every ordered pool pair violates the deflection constraint at
the seed geometry, Phase A ends with no pair selected (the `none` failure
state standing for the NoFeasibleLayup condition): it never returns a
constraint-violating pair. -/
theorem find_best_layup_pair_infeasible (pool : List (List ℝ))
    (h b t_core F L : ℝ)
    (hall : ∀ p ∈ pairsOf pool, ¬ feasibleAt h b F L p) :
    find_best_layup_pair 1 pool h b t_core F L = .ok none := by
  have hspec := selFold_spec (scoreAt h b F L) (feasibleAt h b F L) (pairsOf pool)
  cases hres : (pairsOf pool).foldl
      (selStep (scoreAt h b F L) (feasibleAt h b F L)) none with
  | none => rw [find_best_layup_pair_case1, hres]
  | some q =>
    rw [hres] at hspec
    have hib : IsBestFirst (scoreAt h b F L) (feasibleAt h b F L)
        (pairsOf pool) q.1 q.2 := hspec
    obtain ⟨_, hfq, l₁, l₂, hsplit, _, _⟩ := hib
    refine absurd hfq (hall q.1 ?_)
    rw [hsplit]
    exact List.mem_append.mpr (Or.inr (List.mem_cons_self _ _))

def poolB : List (List ℝ) := [[0]]

/-- C4 witness: a pool of one single-ply layup; its only pair deflects
about 24.5 mm at the seed geometry, violating the 3.8 mm constraint. -/
theorem find_best_layup_pair_infeasible_witness :
    (∀ p ∈ pairsOf poolB, ¬ feasibleAt 35 20 4000 450 p) ∧
    find_best_layup_pair 1 poolB 35 20 4 4000 450 = .ok none := by
  have hall : ∀ p ∈ pairsOf poolB, ¬ feasibleAt 35 20 4000 450 p := by
    intro p hp
    have hp' : p = (([0], [0]) : List ℝ × List ℝ) := by
      simpa [pairsOf, poolB] using hp
    rw [hp']
    show ¬ (seedSection 35 20 4000 450 (([0], [0]) : List ℝ × List ℝ)).delta_max ≤ 3.8
    norm_num [seedSection, assembleProps, webPartsOpen, laminateDefault,
      compute_laminate_A_matrix, E_skin]
  exact ⟨hall, find_best_layup_pair_infeasible poolB 35 20 4 4000 450 hall⟩

/-- C2: the reward is `0.75·mass_band + 0.25·deflection_band` with the
step bands `≤70→10, ≤80→7, ≤100→4, ≤120→2, ≤170→0, else −20` for mass and
`≤2→10, ≤3→5, ≤4→2, else −15` for deflection; at the band boundaries,
mass 70 scores 10 and 70.01 scores 7, deflection 2 scores 10 and 2.01
scores 5, and the total at (70, 2) is exactly 10. -/
theorem custom_reward_bands :
    (∀ m d : ℝ, custom_reward m d =
      0.75 * (if m ≤ 70 then 10
              else if m ≤ 80 then 7
              else if m ≤ 100 then 4
              else if m ≤ 120 then 2
              else if m ≤ 170 then 0
              else -20)
      + 0.25 * (if d ≤ 2 then 10
                else if d ≤ 3 then 5
                else if d ≤ 4 then 2
                else -15)) ∧
    custom_reward 70 2 = 10 ∧
    custom_reward 70.01 2 = 0.75 * 7 + 0.25 * 10 ∧
    custom_reward 70 2.01 = 0.75 * 10 + 0.25 * 5 := by
  refine ⟨fun m d => rfl, ?_, ?_, ?_⟩ <;> norm_num [custom_reward]

end CompositeBeam

namespace CompositeBeam

/-- Entry of a mapped-range list below its length. -/
theorem getD_map_range (f : ℕ → ℝ) (n j : ℕ) (hj : j < n) :
    ((List.range n).map f).getD j 0 = f j := by
  simp [List.getD_eq_getElem?_getD, List.getElem?_map, List.getElem?_range hj]

/-- The amended load-placement property: the load vector is `-F` at the
single displacement dof `2*((N+1)/2)` and zero elsewhere; for even `N`
that is the midspan node `N/2`, for odd `N` the node `N/2 + 1` just above
midspan. -/
def femLoadPost (N : ℕ) (F : ℝ) : Prop :=
  (∀ i : ℕ, F_global N F i ≠ 0 ↔ i = 2 * mid_node N) ∧
  F_global N F (2 * mid_node N) = -F ∧
  F_global N F (2 * mid_node N) < 0 ∧
  mid_node N = (N + 1) / 2 ∧
  (N % 2 = 0 → mid_node N = N / 2) ∧
  (N % 2 = 1 → mid_node N = N / 2 + 1) ∧
  2 * mid_node N % 2 = 0

/-- C6 (amended): for every element count and positive load, the point
load is applied as a negative transverse force at exactly one
displacement dof, that of node `(N+1)/2`: the midspan node when `N` is
even, and the node just above midspan (index `N/2 + 1`, not `N/2`) when
`N` is odd. -/
theorem fem_load_placement (N : ℕ) (F : ℝ) (hF : 0 < F) : femLoadPost N F := by
  have hFne : -F ≠ 0 := by intro hcon; linarith [neg_eq_zero.mp hcon]
  refine ⟨?_, ?_, ?_, rfl, ?_, ?_, ?_⟩
  · intro i
    unfold F_global
    by_cases hi : i = 2 * mid_node N
    · simp [hi, hFne]
    · simp [hi]
  · simp [F_global]
  · simp [F_global]
    linarith
  · intro h; unfold mid_node; omega
  · intro h; unfold mid_node; omega
  · omega

/-- C6 witness: the load placement at `N = 4`, `F = 4000`. -/
theorem fem_load_placement_witness : (0 : ℝ) < 4000 ∧ femLoadPost 4 4000 :=
  ⟨by norm_num, fem_load_placement 4 4000 (by norm_num)⟩

/-- C6 counterexample: for `N = 3` the claim predicts the load at node
`3/2 = 1` truncated, i.e. dof `2`; the code computes `mid_node = (3+1)//2
= 2` and loads dof `4` instead, so dof `2` carries no load. -/
theorem fem_load_odd_counterexample :
    F_global 3 4000 (2 * (3 / 2)) = 0 ∧ (2 * (3 / 2) : ℕ) = 2 ∧
    F_global 3 4000 4 = -4000 ∧ (-4000 : ℝ) ≠ 0 := by
  refine ⟨?_, by norm_num, ?_, by norm_num⟩ <;>
    norm_num [F_global, mid_node]

/-- The structural postcondition of the FEM solve: `N+1` displacement
entries, zeros at both supports, even-dof extraction from the
reconstructed vector, the reconstruction agreeing with the reduced
solution on every free dof, the eliminated set being exactly
`{0, 2N}`, and the reduced solution solving the reduced system whenever
it is nonsingular. -/
def femPost (EI L F : ℝ) (N : ℕ) : Prop :=
  (fem_u EI L F N).length = N + 1 ∧
  (fem_u EI L F N).getD 0 0 = 0 ∧
  (fem_u EI L F N).getD N 0 = 0 ∧
  (∀ j, j ≤ N → (fem_u EI L F N).getD j 0 = d_full EI L F N (2 * j)) ∧
  d_full EI L F N 0 = 0 ∧
  d_full EI L F N (2 * N) = 0 ∧
  (∀ k, k < 2 * N → freeDof N k ≠ 0 ∧ freeDof N k ≠ 2 * N ∧
    freeDof N k < 2 * (N + 1)) ∧
  (∀ k, k < 2 * N → d_full EI L F N (freeDof N k) = d_reducedN EI L F N k) ∧
  (∀ i, 0 < i → i < 2 * (N + 1) → i ≠ 2 * N →
    ∃ k, k < 2 * N ∧ freeDof N k = i) ∧
  (IsUnit (K_reduced EI L N).det →
    Matrix.mulVec (K_reduced EI L N) (d_reduced EI L F N) = F_reduced N F)

/-- C7: for every element count `N ≥ 1` and positive `EI`, `L`, `F`, the
solver eliminates exactly the transverse dofs of the two end nodes,
solves the reduced system, reinserts zeros, and extracts the even dofs:
the displacement curve has `N+1` entries with zero first and last entry,
each entry being the corresponding even-indexed dof of the reconstructed
solution vector. -/
theorem fem_solver_structure (EI L F : ℝ) (N : ℕ) (hN : 1 ≤ N)
    (hEI : 0 < EI) (hL : 0 < L) (hF : 0 < F) : femPost EI L F N := by
  have hfree : ∀ k, k < 2 * N → freeDof N k ≠ 0 ∧ freeDof N k ≠ 2 * N ∧
      freeDof N k < 2 * (N + 1) := by
    intro k hk
    unfold freeDof
    split <;> omega
  refine ⟨?_, ?_, ?_, ?_, ?_, ?_, hfree, ?_, ?_, ?_⟩
  · simp [fem_u]
  · rw [show (fem_u EI L F N).getD 0 0 = d_full EI L F N (2 * 0) from
      getD_map_range _ (N + 1) 0 (by omega)]
    simp [d_full]
  · rw [show (fem_u EI L F N).getD N 0 = d_full EI L F N (2 * N) from
      getD_map_range _ (N + 1) N (by omega)]
    unfold d_full
    rw [if_neg (by omega), if_pos rfl]
  · intro j hj
    exact getD_map_range _ (N + 1) j (by omega)
  · simp [d_full]
  · unfold d_full
    rw [if_neg (by omega), if_pos rfl]
  · intro k hk
    by_cases hsmall : k < 2 * N - 1
    · have h1 : freeDof N k = k + 1 := if_pos hsmall
      rw [h1]
      unfold d_full
      rw [if_neg (by omega), if_neg (by omega), if_neg (by omega)]
      exact congrArg (d_reducedN EI L F N) (by omega)
    · have hk' : k = 2 * N - 1 := by omega
      have h1 : freeDof N k = 2 * N + 1 := if_neg hsmall
      rw [h1]
      unfold d_full
      rw [if_neg (by omega), if_neg (by omega), if_pos rfl]
      rw [hk']
  · intro i hi0 hilt hine
    by_cases hle : i ≤ 2 * N - 1
    · exact ⟨i - 1, by omega, by unfold freeDof; rw [if_pos (by omega)]; omega⟩
    · have : i = 2 * N + 1 := by omega
      exact ⟨2 * N - 1, by omega, by unfold freeDof; rw [if_neg (by omega)]; omega⟩
  · intro hU
    unfold d_reduced
    rw [Matrix.mulVec_mulVec, Matrix.mul_nonsing_inv _ hU, Matrix.one_mulVec]

/-- C7 witness: the structural postcondition at `EI = L = F = 1`, `N = 2`. -/
theorem fem_solver_structure_witness :
    1 ≤ 2 ∧ (0 : ℝ) < 1 ∧ femPost 1 1 1 2 :=
  ⟨by norm_num, by norm_num,
    fem_solver_structure 1 1 1 2 (by norm_num) (by norm_num) (by norm_num)
      (by norm_num)⟩

end CompositeBeam

namespace CompositeBeam

/-- The per-ply rotated stiffness written by the source is not symmetric:
its `(0,1)/(1,0)` entries agree, but the `(0,2)` and `(1,2)` entries are
twice the `(2,0)` and `(2,1)` entries for every angle and material. -/
theorem Q_bar_skew (E1 E2 G12 v12 m n : ℝ) :
    Q_bar E1 E2 G12 v12 m n 0 1 = Q_bar E1 E2 G12 v12 m n 1 0 ∧
    Q_bar E1 E2 G12 v12 m n 0 2 = 2 * Q_bar E1 E2 G12 v12 m n 2 0 ∧
    Q_bar E1 E2 G12 v12 m n 1 2 = 2 * Q_bar E1 E2 G12 v12 m n 2 1 := by
  refine ⟨?_, ?_, ?_⟩ <;>
  · simp [Q_bar, T1, T2, Qply, Matrix.mul_apply, Fin.sum_univ_three,
      Matrix.transpose_apply, Matrix.cons_val_zero, Matrix.cons_val_one,
      Matrix.cons_val_two, Matrix.head_cons, Matrix.vecTail, Matrix.vecHead]
    ring

/-- C8: the A-matrix computed for the single-ply layup `[45]` with the
default material constants is not symmetric — its shear-coupling entry
`A[0][2]` differs from `A[2][0]` (it is exactly twice as large), because
the source computes `T1·Q·T2ᵀ`, a similarity rather than a congruence
transform of the symmetric ply stiffness. -/
theorem laminate_A_asymmetric_at_45 :
    (laminateDefault [45]).A_matrix 0 2 ≠ (laminateDefault [45]).A_matrix 2 0 := by
  have h45c : Real.cos ((45 : ℝ) * Real.pi / 180) = Real.sqrt 2 / 2 := by
    rw [show (45 : ℝ) * Real.pi / 180 = Real.pi / 4 by ring, Real.cos_pi_div_four]
  have h45s : Real.sin ((45 : ℝ) * Real.pi / 180) = Real.sqrt 2 / 2 := by
    rw [show (45 : ℝ) * Real.pi / 180 = Real.pi / 4 by ring, Real.sin_pi_div_four]
  simp only [laminateDefault, compute_laminate_A_matrix, List.map_cons,
    List.map_nil, List.sum_cons, List.sum_nil, add_zero, h45c, h45s]
  simp [Q_bar, T1, T2, Qply, Matrix.mul_apply, Fin.sum_univ_three,
    Matrix.transpose_apply, Matrix.cons_val_zero, Matrix.cons_val_one,
    Matrix.cons_val_two, Matrix.head_cons, Matrix.vecTail, Matrix.vecHead,
    Matrix.smul_apply]
  ring_nf
  simp [Real.sq_sqrt, show (0 : ℝ) ≤ 2 by norm_num]
  norm_num

/-- C5 counterexample: homogenizing the empty ply stack does not fail —
the source performs no validation and returns a normal result: the zero
stiffness matrix with zero total thickness.  The claimed InvalidInput
failure path does not exist in the code. -/
theorem laminate_empty_returns :
    (compute_laminate_A_matrix 115000 7600 3500 (3 / 10) (7 / 50) []).A_matrix
      = 0 ∧
    (compute_laminate_A_matrix 115000 7600 3500 (3 / 10) (7 / 50) []).thickness
      = 0 := by
  constructor
  · simp [compute_laminate_A_matrix]
  · simp [compute_laminate_A_matrix]

/-- C5 (amended): laminate homogenization never fails: every ply stack —
any real angle values and the empty stack included — produces a normal
result with total thickness `length · ply_thickness`, the empty stack
yielding the zero stiffness matrix. -/
theorem laminate_total_no_validation (E1 E2 G12 v12 tply : ℝ)
    (layup : List ℝ) :
    (compute_laminate_A_matrix E1 E2 G12 v12 tply layup).thickness =
      (layup.length : ℝ) * tply ∧
    (compute_laminate_A_matrix E1 E2 G12 v12 tply []).A_matrix = 0 :=
  ⟨rfl, by simp [compute_laminate_A_matrix]⟩

end CompositeBeam
